import Mathlib

/-!
Verification development for the analyzer core of the maplestory-artale-explab
repository (files src/explab/analyzer/exp.py, hp.py, mp.py).

Modelling conventions of the shallow embedding:
* Python ints are `ℤ`, Python floats are `ℚ` (no float rounding is relevant to
  the claims; NaN / +inf sentinel values are represented by the inductive
  `PyFloat`).
* `datetime` timestamps are `ℚ` seconds; `(a - b).total_seconds()` is `a - b`.
* Methods that mutate the analyzer are functions `State → State`; `get_result`
  is translated as a state-passing function returning the (unchanged) state
  together with its outcome, and raising `ValueError` is the `Except.error`
  branch.
* Python `statistics.median` sorts its input; the sort is modelled by
  `List.insertionSort`, which produces the same sorted list of rationals.
-/

/-- Experience checkpoint (`explab/maplestory/exp.py`): level, exp, exp_ratio
and a timestamp in seconds. -/
structure ExpCheckpoint where
  level : ℤ
  exp : ℤ
  exp_ratio : ℚ
  ts : ℚ
deriving DecidableEq, Inhabited

/-- HP checkpoint (`explab/maplestory/hp.py`). -/
structure HpCheckpoint where
  current_hp : ℤ
  total_hp : ℤ
  ts : ℚ
deriving DecidableEq, Inhabited

/-- MP checkpoint (`explab/maplestory/mp.py`). -/
structure MpCheckpoint where
  current_mp : ℤ
  total_mp : ℤ
  ts : ℚ
deriving DecidableEq, Inhabited

/-- A Python float value that may carry the NaN or +infinity sentinel. -/
inductive PyFloat where
  | nan : PyFloat
  | inf : PyFloat
  | val : ℚ → PyFloat
deriving DecidableEq, Inhabited

/-- `ExpAnalyzerConfig` dataclass. -/
structure ExpAnalyzerConfig where
  interval : ℤ
  max_checkpoints : ℕ
  min_checkpoints : ℕ
deriving DecidableEq

/-- Default values of `ExpAnalyzerConfig` (interval 5, max 720, min 2). -/
def defaultExpAnalyzerConfig : ExpAnalyzerConfig := ⟨5, 720, 2⟩

/-- `HpAnalyzerConfig` dataclass. -/
structure HpAnalyzerConfig where
  interval : ℤ
  max_checkpoints : ℕ
  min_checkpoints : ℕ
deriving DecidableEq

/-- Default values of `HpAnalyzerConfig` (interval 1, max 3600, min 10). -/
def defaultHpAnalyzerConfig : HpAnalyzerConfig := ⟨1, 3600, 10⟩

/-- `MpAnalyzerConfig` dataclass (includes the pipeline-only `batch_size`). -/
structure MpAnalyzerConfig where
  interval : ℤ
  batch_size : ℕ
  max_checkpoints : ℕ
  min_checkpoints : ℕ
deriving DecidableEq

/-- Default values of `MpAnalyzerConfig` (interval 1, batch 5, max 3600, min 10). -/
def defaultMpAnalyzerConfig : MpAnalyzerConfig := ⟨1, 5, 3600, 10⟩

/-- State of `ExpAnalyzer`: config, checkpoint window and the parallel
validity-indicator list. -/
structure ExpAnalyzer where
  config : ExpAnalyzerConfig
  checkpoints : List ExpCheckpoint
  checkpoint_indicators : List Bool

/-- `ExpAnalyzer.__init__`. -/
def ExpAnalyzer.init : ExpAnalyzer := ⟨defaultExpAnalyzerConfig, [], []⟩

/-- State of `HpAnalyzer`. -/
structure HpAnalyzer where
  config : HpAnalyzerConfig
  checkpoints : List HpCheckpoint

/-- `HpAnalyzer.__init__`. -/
def HpAnalyzer.init : HpAnalyzer := ⟨defaultHpAnalyzerConfig, []⟩

/-- State of `MpAnalyzer`. -/
structure MpAnalyzer where
  config : MpAnalyzerConfig
  checkpoints : List MpCheckpoint

/-- `MpAnalyzer.__init__`. -/
def MpAnalyzer.init : MpAnalyzer := ⟨defaultMpAnalyzerConfig, []⟩

/-- `ExpAnalyzer.reset`: clears both windows. -/
def ExpAnalyzer.reset (a : ExpAnalyzer) : ExpAnalyzer :=
  { a with checkpoints := [], checkpoint_indicators := [] }

/-- `HpAnalyzer.reset`. -/
def HpAnalyzer.reset (a : HpAnalyzer) : HpAnalyzer :=
  { a with checkpoints := [] }

/-- `MpAnalyzer.reset`. -/
def MpAnalyzer.reset (a : MpAnalyzer) : MpAnalyzer :=
  { a with checkpoints := [] }

/-- Python `statistics.median` on rationals: sort; middle element when the
length is odd, mean of the two middle elements when even. -/
def median (l : List ℚ) : ℚ :=
  let s := l.insertionSort (· ≤ ·)
  let n := l.length
  if n % 2 = 1 then s.getD (n / 2) 0
  else (s.getD (n / 2 - 1) 0 + s.getD (n / 2) 0) / 2

/-- The `(idx, checkpoint)` pairs of one `level_groups` entry in
`ExpAnalyzer._validate_checkpoints`: window positions whose checkpoint has the
given level, in window order. -/
def levelGroup (cps : List ExpCheckpoint) (lvl : ℤ) : List (ℕ × ExpCheckpoint) :=
  cps.enum.filter fun p => p.2.level == lvl

/-- The parallel `idx_list` / `total_exp_list` construction of
`_validate_checkpoints`: members of a group with `exp_ratio > 0`, paired with
their implied total experience `exp / exp_ratio`. -/
def impliedPairs (group : List (ℕ × ExpCheckpoint)) : List (ℕ × ℚ) :=
  group.filterMap fun p =>
    if 0 < p.2.exp_ratio then some (p.1, (p.2.exp : ℚ) / p.2.exp_ratio) else none

/-- Body of the per-group loop of `_validate_checkpoints`: skip groups with
fewer than two implied totals, otherwise set the indicator of every member
deviating from the median consensus by more than `tol` to `false`. -/
def groupStep (tol : ℚ) (ind : List Bool) (group : List (ℕ × ExpCheckpoint)) : List Bool :=
  let pairs := impliedPairs group
  if pairs.length < 2 then ind
  else
    let consensus := median (pairs.map Prod.snd)
    pairs.foldl
      (fun ind2 p => if tol < |p.2 - consensus| / consensus then ind2.set p.1 false else ind2)
      ind

/-- Distinct values of a list in first-appearance order, mirroring the key
order of the Python `defaultdict` built by `_validate_checkpoints`. -/
def firstOccsAux : List ℤ → List ℤ → List ℤ
  | [], _ => []
  | a :: l, seen => if a ∈ seen then firstOccsAux l seen else a :: firstOccsAux l (a :: seen)

/-- Distinct levels of the window in first-appearance order. -/
def firstOccs (l : List ℤ) : List ℤ := firstOccsAux l []

/-- `ExpAnalyzer._validate_checkpoints` as a function of the checkpoint window:
all-valid below five checkpoints, otherwise the median-consensus outlier filter
applied group by group. -/
def validateCheckpoints (tol : ℚ) (cps : List ExpCheckpoint) : List Bool :=
  if cps.length < 5 then List.replicate cps.length true
  else
    (firstOccs (cps.map ExpCheckpoint.level)).foldl
      (fun ind lvl => groupStep tol ind (levelGroup cps lvl))
      (List.replicate cps.length true)

/-- The default `tolerance_exp_ratio` argument of `_validate_checkpoints`. -/
def toleranceExpRatio : ℚ := 2 / 100

/-- `ExpAnalyzer.add_checkpoint`: FIFO-evict both windows at capacity, append,
then recompute the whole validity window. -/
def ExpAnalyzer.addCheckpoint (a : ExpAnalyzer) (c : ExpCheckpoint) : ExpAnalyzer :=
  let atCap := a.config.max_checkpoints ≤ a.checkpoints.length
  let cps0 := if atCap then a.checkpoints.drop 1 else a.checkpoints
  let _ind0 := if atCap then a.checkpoint_indicators.drop 1 else a.checkpoint_indicators
  let cps := cps0 ++ [c]
  { a with
      checkpoints := cps
      checkpoint_indicators := validateCheckpoints toleranceExpRatio cps }

/-- `HpAnalyzer.add_checkpoint`. -/
def HpAnalyzer.addCheckpoint (a : HpAnalyzer) (c : HpCheckpoint) : HpAnalyzer :=
  let cps0 :=
    if a.config.max_checkpoints ≤ a.checkpoints.length then a.checkpoints.drop 1
    else a.checkpoints
  { a with checkpoints := cps0 ++ [c] }

/-- `MpAnalyzer.add_checkpoint`. -/
def MpAnalyzer.addCheckpoint (a : MpAnalyzer) (c : MpCheckpoint) : MpAnalyzer :=
  let cps0 :=
    if a.config.max_checkpoints ≤ a.checkpoints.length then a.checkpoints.drop 1
    else a.checkpoints
  { a with checkpoints := cps0 ++ [c] }

/-- `ExpAnalyzer._compute_exp_per_minute`: fold over consecutive index pairs
`(i-1, i)`; a pair is skipped unless both indicators are true and both levels
agree, otherwise it adds the raw exp delta to the numerator and the timestamp
delta in minutes to the denominator; the rate is returned only for a positive
denominator. -/
def computeExpPerMinute (a : ExpAnalyzer) : Option ℚ :=
  let acc :=
    (List.range' 1 (a.checkpoints.length - 1)).foldl
      (fun (acc : ℤ × ℚ) i =>
        if ¬(a.checkpoint_indicators.getD i false ∧ a.checkpoint_indicators.getD (i - 1) false)
        then acc
        else if (a.checkpoints.getD i default).level ≠ (a.checkpoints.getD (i - 1) default).level
        then acc
        else
          (acc.1 + ((a.checkpoints.getD i default).exp - (a.checkpoints.getD (i - 1) default).exp),
           acc.2 + ((a.checkpoints.getD i default).ts - (a.checkpoints.getD (i - 1) default).ts) / 60))
      (0, 0)
  if 0 < acc.2 then some ((acc.1 : ℚ) / acc.2) else none

/-- `ExpAnalyzer._compute_total_exp`: implied total experience of the last
checkpoint, undefined on an empty window or a non-positive `exp_ratio`. -/
def computeTotalExp (cps : List ExpCheckpoint) : Option ℚ :=
  if cps.isEmpty then none
  else
    let last := cps.getLastD default
    if last.exp_ratio ≤ 0 then none
    else some ((last.exp : ℚ) / last.exp_ratio)

/-- `ExpAnalyzer._compute_minutes_to_next_level`. -/
def computeMinutesToNextLevel (cps : List ExpCheckpoint) (exp_per_minute : ℚ) : Option PyFloat :=
  if cps.isEmpty then none
  else
    let last := cps.getLastD default
    match computeTotalExp cps with
    | none => none
    | some total =>
      let remaining := total - (last.exp : ℚ)
      if remaining ≤ 0 then some (PyFloat.val 0)
      else if exp_per_minute ≤ 0 then some PyFloat.inf
      else some (PyFloat.val (remaining / exp_per_minute))

/-- `ExpAnalyzerResult` dataclass. -/
structure ExpAnalyzerResult where
  current_exp : ℤ
  current_level : ℤ
  exp_per_minute : ℚ
  exp_ratio_per_minute : PyFloat
  minutes_to_next_level : PyFloat
  ts : ℚ
deriving DecidableEq

/-- `HpAnalyzerResult` dataclass. -/
structure HpAnalyzerResult where
  current_hp : ℤ
  total_hp : ℤ
  hp_lost_per_minute : ℚ
  ts : ℚ
deriving DecidableEq

/-- `MpAnalyzerResult` dataclass. -/
structure MpAnalyzerResult where
  current_mp : ℤ
  total_mp : ℤ
  mp_lost_per_minute : ℚ
  ts : ℚ
deriving DecidableEq

/-- `ExpAnalyzer.get_result`, state-passing: raises on an empty window,
returns the typed no-result below `min_checkpoints` or when the rate is
undefined, otherwise assembles the result snapshot (`now` stands for
`datetime.datetime.now()`).  The returned state is the analyzer state after
the call. -/
def ExpAnalyzer.getResultS (a : ExpAnalyzer) (now : ℚ) :
    ExpAnalyzer × Except String (Option ExpAnalyzerResult) :=
  if a.checkpoints.isEmpty then (a, Except.error "No checkpoints available for analysis.")
  else if a.checkpoints.length < a.config.min_checkpoints then (a, Except.ok none)
  else
    let last := a.checkpoints.getLastD default
    match computeExpPerMinute a with
    | none => (a, Except.ok none)
    | some exp_per_minute =>
      let total_exp := computeTotalExp a.checkpoints
      let erpm0 : PyFloat :=
        match total_exp with
        | some t => if t ≠ 0 then PyFloat.val (exp_per_minute / t) else PyFloat.nan
        | none => PyFloat.nan
      let exp_ratio_per_minute := if exp_per_minute = 0 then PyFloat.val 0 else erpm0
      let minutes_to_next_level :=
        match computeMinutesToNextLevel a.checkpoints exp_per_minute with
        | none => PyFloat.nan
        | some v => v
      (a, Except.ok (some
        { current_exp := last.exp
          current_level := last.level
          exp_per_minute := exp_per_minute
          exp_ratio_per_minute := exp_ratio_per_minute
          minutes_to_next_level := minutes_to_next_level
          ts := now }))

/-- Outcome of `ExpAnalyzer.get_result`. -/
def ExpAnalyzer.getResult (a : ExpAnalyzer) (now : ℚ) :
    Except String (Option ExpAnalyzerResult) :=
  (a.getResultS now).2

/-- `HpAnalyzer._compute_hp_lost_per_minute`: undefined below two checkpoints;
accumulate only decreases of `current_hp` but the elapsed seconds of every
pair; rate only for a positive time span. -/
def computeHpLostPerMinute (cps : List HpCheckpoint) : Option ℚ :=
  if cps.length < 2 then none
  else
    let acc :=
      (List.range' 1 (cps.length - 1)).foldl
        (fun (acc : ℤ × ℚ) i =>
          let prev := cps.getD (i - 1) default
          let curr := cps.getD i default
          ((if curr.current_hp < prev.current_hp
            then acc.1 + (prev.current_hp - curr.current_hp) else acc.1),
           acc.2 + (curr.ts - prev.ts)))
        (0, 0)
    if 0 < acc.2 then
      let time_diff_minutes := acc.2 / 60
      if 0 < time_diff_minutes then some ((acc.1 : ℚ) / time_diff_minutes)
      else some 0
    else none

/-- `MpAnalyzer._compute_mp_lost_per_minute` (same shape as the HP variant). -/
def computeMpLostPerMinute (cps : List MpCheckpoint) : Option ℚ :=
  if cps.length < 2 then none
  else
    let acc :=
      (List.range' 1 (cps.length - 1)).foldl
        (fun (acc : ℤ × ℚ) i =>
          let prev := cps.getD (i - 1) default
          let curr := cps.getD i default
          ((if curr.current_mp < prev.current_mp
            then acc.1 + (prev.current_mp - curr.current_mp) else acc.1),
           acc.2 + (curr.ts - prev.ts)))
        (0, 0)
    if 0 < acc.2 then
      let time_diff_minutes := acc.2 / 60
      if 0 < time_diff_minutes then some ((acc.1 : ℚ) / time_diff_minutes)
      else some 0
    else none

/-- `HpAnalyzer.get_result`, state-passing: a typed no-result below
`min_checkpoints` or when the rate is undefined; never raises. -/
def HpAnalyzer.getResultS (a : HpAnalyzer) (now : ℚ) :
    HpAnalyzer × Option HpAnalyzerResult :=
  if a.checkpoints.length < a.config.min_checkpoints then (a, none)
  else
    let last := a.checkpoints.getLastD default
    match computeHpLostPerMinute a.checkpoints with
    | none => (a, none)
    | some hp_lost_per_minute =>
      (a, some
        { current_hp := last.current_hp
          total_hp := last.total_hp
          hp_lost_per_minute := hp_lost_per_minute
          ts := now })

/-- Outcome of `HpAnalyzer.get_result`. -/
def HpAnalyzer.getResult (a : HpAnalyzer) (now : ℚ) : Option HpAnalyzerResult :=
  (a.getResultS now).2

/-- `MpAnalyzer.get_result`, state-passing. -/
def MpAnalyzer.getResultS (a : MpAnalyzer) (now : ℚ) :
    MpAnalyzer × Option MpAnalyzerResult :=
  if a.checkpoints.length < a.config.min_checkpoints then (a, none)
  else
    let last := a.checkpoints.getLastD default
    match computeMpLostPerMinute a.checkpoints with
    | none => (a, none)
    | some mp_lost_per_minute =>
      (a, some
        { current_mp := last.current_mp
          total_mp := last.total_mp
          mp_lost_per_minute := mp_lost_per_minute
          ts := now })

/-- Outcome of `MpAnalyzer.get_result`. -/
def MpAnalyzer.getResult (a : MpAnalyzer) (now : ℚ) : Option MpAnalyzerResult :=
  (a.getResultS now).2

/-- Whether the per-group loop of `_validate_checkpoints` sets index `j` to
`false`: the group has at least two implied totals and some member at window
position `j` deviates from the consensus by more than `tol`. -/
def groupInvalidates (tol : ℚ) (group : List (ℕ × ExpCheckpoint)) (j : ℕ) : Bool :=
  let pairs := impliedPairs group
  if pairs.length < 2 then false
  else
    let consensus := median (pairs.map Prod.snd)
    pairs.any fun p => p.1 == j && decide (tol < |p.2 - consensus| / consensus)

/-- The implied totals of the level group of `lvl`, in window order. -/
def impliedTotals (cps : List ExpCheckpoint) (lvl : ℤ) : List ℚ :=
  (impliedPairs (levelGroup cps lvl)).map Prod.snd

lemma set_false_getElem? (l : List Bool) (j : ℕ) :
    (l.set j false)[j]? = if j < l.length then some false else none := by
  by_cases h : j < l.length
  · simp [List.getElem?_set_self h, h]
  · rw [if_neg h]
    rw [List.getElem?_eq_none]
    simpa using Nat.le_of_not_lt h

lemma foldl_invalidate_length (P : ℕ × ℚ → Prop) [DecidablePred P] (ps : List (ℕ × ℚ))
    (ind : List Bool) :
    (ps.foldl (fun ind2 p => if P p then ind2.set p.1 false else ind2) ind).length
      = ind.length := by
  induction ps generalizing ind with
  | nil => rfl
  | cons p ps ih =>
    rw [List.foldl_cons, ih]
    by_cases h : P p <;> simp [h]

lemma foldl_invalidate_getElem? (P : ℕ × ℚ → Prop) [DecidablePred P] (ps : List (ℕ × ℚ))
    (ind : List Bool) (j : ℕ) :
    (ps.foldl (fun ind2 p => if P p then ind2.set p.1 false else ind2) ind)[j]?
      = if ps.any (fun p => p.1 == j && decide (P p)) then (ind.set j false)[j]?
        else ind[j]? := by
  induction ps generalizing ind with
  | nil => simp
  | cons p ps ih =>
    rw [List.foldl_cons, ih]
    have hlen : (if P p then ind.set p.1 false else ind).length = ind.length := by
      by_cases h : P p <;> simp [h]
    have hset : ((if P p then ind.set p.1 false else ind).set j false)[j]?
        = (ind.set j false)[j]? := by
      rw [set_false_getElem?, set_false_getElem?, hlen]
    have hstep : (if P p then ind.set p.1 false else ind)[j]?
        = if p.1 == j && decide (P p) then (ind.set j false)[j]? else ind[j]? := by
      by_cases hp : P p
      · by_cases hj : p.1 = j
        · subst hj; simp [hp]
        · simp [hp, hj, List.getElem?_set_ne hj]
      · simp [hp]
    by_cases hAny : ps.any (fun p => p.1 == j && decide (P p)) = true
    · rw [if_pos hAny, hset, List.any_cons]
      rw [if_pos (by simp [hAny])]
    · rw [if_neg hAny, hstep, List.any_cons]
      by_cases hHead : (p.1 == j && decide (P p)) = true
      · rw [if_pos hHead, if_pos (by simp [hHead])]
      · rw [if_neg hHead, if_neg (by simp [hHead, hAny])]

lemma groupStep_length (tol : ℚ) (ind : List Bool) (g : List (ℕ × ExpCheckpoint)) :
    (groupStep tol ind g).length = ind.length := by
  unfold groupStep
  by_cases h : (impliedPairs g).length < 2
  · simp [h]
  · simp only [h, if_false]
    exact foldl_invalidate_length _ _ _

lemma groupStep_getElem? (tol : ℚ) (ind : List Bool) (g : List (ℕ × ExpCheckpoint)) (j : ℕ) :
    (groupStep tol ind g)[j]?
      = if groupInvalidates tol g j then (ind.set j false)[j]? else ind[j]? := by
  unfold groupStep groupInvalidates
  by_cases h : (impliedPairs g).length < 2
  · simp [h]
  · simp only [h, if_false]
    exact foldl_invalidate_getElem? _ _ _ _

lemma mem_impliedPairs_levelGroup {cps : List ExpCheckpoint} {lvl : ℤ} {p : ℕ × ℚ} :
    p ∈ impliedPairs (levelGroup cps lvl)
      ↔ ∃ cp, cps[p.1]? = some cp ∧ cp.level = lvl ∧ 0 < cp.exp_ratio
          ∧ p.2 = (cp.exp : ℚ) / cp.exp_ratio := by
  unfold impliedPairs levelGroup
  rw [List.mem_filterMap]
  constructor
  · rintro ⟨q, hq, hf⟩
    rw [List.mem_filter] at hq
    obtain ⟨hqEnum, hqLvl⟩ := hq
    by_cases hr : 0 < q.2.exp_ratio
    · rw [if_pos hr] at hf
      obtain ⟨h1, h2⟩ := Prod.mk.injEq .. ▸ Option.some.injEq .. ▸ hf
      refine ⟨q.2, ?_, by simpa using hqLvl, hr, h2.symm⟩
      rw [← h1]
      exact List.mem_enum_iff_getElem?.mp hqEnum
    · rw [if_neg hr] at hf
      exact absurd hf (by simp)
  · rintro ⟨cp, hcp, hlvl, hr, hval⟩
    refine ⟨(p.1, cp), ?_, ?_⟩
    · rw [List.mem_filter]
      exact ⟨List.mem_enum_iff_getElem?.mpr hcp, by simpa using hlvl⟩
    · rw [if_pos hr, ← hval]

lemma groupInvalidates_level {tol : ℚ} {cps : List ExpCheckpoint} {lvl : ℤ} {j : ℕ}
    (h : groupInvalidates tol (levelGroup cps lvl) j = true) :
    ∃ cp, cps[j]? = some cp ∧ cp.level = lvl ∧ 0 < cp.exp_ratio := by
  unfold groupInvalidates at h
  by_cases hlen : (impliedPairs (levelGroup cps lvl)).length < 2
  · simp [hlen] at h
  · simp only [hlen, if_false, List.any_eq_true, Bool.and_eq_true, beq_iff_eq,
      decide_eq_true_eq] at h
    obtain ⟨p, hp, hpj, _⟩ := h
    obtain ⟨cp, hcp, hcpl, hcpr, _⟩ := mem_impliedPairs_levelGroup.mp hp
    exact ⟨cp, hpj ▸ hcp, hcpl, hcpr⟩

lemma mem_firstOccsAux {a : ℤ} : ∀ {l seen : List ℤ},
    a ∈ firstOccsAux l seen ↔ a ∈ l ∧ a ∉ seen := by
  intro l
  induction l with
  | nil => intro seen; simp [firstOccsAux]
  | cons b l ih =>
    intro seen
    unfold firstOccsAux
    by_cases hab : a = b
    · subst hab
      by_cases hb : a ∈ seen
      · rw [if_pos hb, ih]
        simp [hb]
      · rw [if_neg hb]
        simp [hb]
    · by_cases hb : b ∈ seen
      · rw [if_pos hb, ih]
        simp [List.mem_cons, hab]
      · rw [if_neg hb]
        simp [List.mem_cons, hab, ih]

lemma mem_firstOccs {a : ℤ} {l : List ℤ} : a ∈ firstOccs l ↔ a ∈ l := by
  unfold firstOccs
  rw [mem_firstOccsAux]
  simp

lemma foldl_groupStep_length (tol : ℚ) (cps : List ExpCheckpoint) (L : List ℤ)
    (ind : List Bool) :
    (L.foldl (fun ind lvl => groupStep tol ind (levelGroup cps lvl)) ind).length
      = ind.length := by
  induction L generalizing ind with
  | nil => rfl
  | cons lvl L ih => rw [List.foldl_cons, ih, groupStep_length]

lemma foldl_groupStep_getElem? (tol : ℚ) (cps : List ExpCheckpoint) (L : List ℤ)
    (ind : List Bool) (j : ℕ) :
    (L.foldl (fun ind lvl => groupStep tol ind (levelGroup cps lvl)) ind)[j]?
      = if L.any (fun lvl => groupInvalidates tol (levelGroup cps lvl) j)
        then (ind.set j false)[j]? else ind[j]? := by
  induction L generalizing ind with
  | nil => simp
  | cons lvl L ih =>
    rw [List.foldl_cons, ih]
    have hset : ((groupStep tol ind (levelGroup cps lvl)).set j false)[j]?
        = (ind.set j false)[j]? := by
      rw [set_false_getElem?, set_false_getElem?, groupStep_length]
    by_cases hAny : L.any (fun lvl => groupInvalidates tol (levelGroup cps lvl) j) = true
    · rw [if_pos hAny, hset, List.any_cons, if_pos (by simp [hAny])]
    · rw [if_neg hAny, groupStep_getElem?, List.any_cons]
      by_cases hHead : groupInvalidates tol (levelGroup cps lvl) j = true
      · rw [if_pos hHead, if_pos (by simp [hHead])]
      · rw [if_neg hHead, if_neg (by simp [hHead, hAny])]

lemma validateCheckpoints_length (tol : ℚ) (cps : List ExpCheckpoint) :
    (validateCheckpoints tol cps).length = cps.length := by
  unfold validateCheckpoints
  by_cases h : cps.length < 5
  · simp [h]
  · simp only [h, if_false]
    rw [foldl_groupStep_length, List.length_replicate]

lemma validateCheckpoints_getElem? {tol : ℚ} {cps : List ExpCheckpoint} {j : ℕ}
    {cp : ExpCheckpoint} (hj : cps[j]? = some cp) (h5 : 5 ≤ cps.length) :
    (validateCheckpoints tol cps)[j]?
      = some (!groupInvalidates tol (levelGroup cps cp.level) j) := by
  have hjl : j < cps.length := by
    rcases List.getElem?_eq_some.mp hj with ⟨h, _⟩
    exact h
  have hmem : cp.level ∈ firstOccs (cps.map ExpCheckpoint.level) := by
    rw [mem_firstOccs]
    exact List.mem_map.mpr ⟨cp, List.getElem?_mem hj, rfl⟩
  have hred : (firstOccs (cps.map ExpCheckpoint.level)).any
      (fun lvl => groupInvalidates tol (levelGroup cps lvl) j)
      = groupInvalidates tol (levelGroup cps cp.level) j := by
    cases hInv : groupInvalidates tol (levelGroup cps cp.level) j with
    | false =>
      rw [List.any_eq_false]
      intro lvl _ h
      obtain ⟨cp2, hcp2, hlvl2, _⟩ := groupInvalidates_level h
      rw [hj] at hcp2
      obtain rfl : cp = cp2 := Option.some.inj hcp2
      rw [hlvl2] at hInv
      rw [hInv] at h
      exact Bool.noConfusion h
    | true =>
      rw [List.any_eq_true]
      exact ⟨cp.level, hmem, hInv⟩
  unfold validateCheckpoints
  rw [if_neg (by omega)]
  rw [foldl_groupStep_getElem?, hred]
  cases hInv : groupInvalidates tol (levelGroup cps cp.level) j with
  | false =>
    simp [List.getElem?_replicate, hjl]
  | true =>
    rw [if_pos rfl, set_false_getElem?]
    simp [hjl]

lemma foldl_prod_add {M N : Type} [AddCommMonoid M] [AddCommMonoid N]
    (f : ℕ → M) (g : ℕ → N) (l : List ℕ) (x : M) (y : N) :
    l.foldl (fun acc i => (acc.1 + f i, acc.2 + g i)) (x, y)
      = (x + (l.map f).sum, y + (l.map g).sum) := by
  induction l generalizing x y with
  | nil => simp
  | cons i l ih =>
    rw [List.foldl_cons, ih]
    simp [add_assoc]

lemma sum_map_ite {M : Type} [AddCommMonoid M] (c : ℕ → Bool) (f : ℕ → M) (l : List ℕ) :
    (l.map fun i => if c i then f i else 0).sum = ((l.filter c).map f).sum := by
  induction l with
  | nil => rfl
  | cons i l ih =>
    by_cases h : c i <;> simp [h, ih]

/-- The contribution condition of `_compute_exp_per_minute` for the pair
`(i-1, i)`: both indicators true and equal levels. -/
def contributesB (a : ExpAnalyzer) (i : ℕ) : Bool :=
  (a.checkpoint_indicators.getD i false && a.checkpoint_indicators.getD (i - 1) false)
    && ((a.checkpoints.getD i default).level == (a.checkpoints.getD (i - 1) default).level)

lemma expBody_eq (a : ExpAnalyzer) :
    ∀ (acc : ℤ × ℚ), ∀ i ∈ List.range' 1 (a.checkpoints.length - 1),
      (if ¬(a.checkpoint_indicators.getD i false ∧ a.checkpoint_indicators.getD (i - 1) false)
       then acc
       else if (a.checkpoints.getD i default).level ≠ (a.checkpoints.getD (i - 1) default).level
       then acc
       else
        (acc.1 + ((a.checkpoints.getD i default).exp - (a.checkpoints.getD (i - 1) default).exp),
         acc.2 + ((a.checkpoints.getD i default).ts - (a.checkpoints.getD (i - 1) default).ts) / 60))
      = (acc.1 + (if contributesB a i
            then (a.checkpoints.getD i default).exp - (a.checkpoints.getD (i - 1) default).exp
            else 0),
         acc.2 + (if contributesB a i
            then ((a.checkpoints.getD i default).ts - (a.checkpoints.getD (i - 1) default).ts) / 60
            else 0)) := by
  intro acc i _
  simp only [contributesB, List.getD_eq_getElem?_getD]
  by_cases h1 : a.checkpoint_indicators[i]?.getD false = true <;>
    by_cases h2 : a.checkpoint_indicators[i - 1]?.getD false = true <;>
    by_cases h3 : (a.checkpoints[i]?.getD default).level
      = (a.checkpoints[i - 1]?.getD default).level <;>
    simp [h1, h2, h3, Prod.mk.eta]

/-- C1: `_compute_exp_per_minute` sums, over exactly the consecutive pairs
whose two checkpoints are both marked valid and share a level, the raw
(unclamped) exp deltas and the timestamp deltas in minutes, and returns their
quotient precisely when the accumulated time is positive. -/
theorem exp_rate_pair_contribution (a : ExpAnalyzer) :
    computeExpPerMinute a =
      (let pairs := (List.range' 1 (a.checkpoints.length - 1)).filter (contributesB a)
       let num : ℤ := (pairs.map fun i =>
          (a.checkpoints.getD i default).exp - (a.checkpoints.getD (i - 1) default).exp).sum
       let den : ℚ := (pairs.map fun i =>
          ((a.checkpoints.getD i default).ts - (a.checkpoints.getD (i - 1) default).ts) / 60).sum
       if 0 < den then some ((num : ℚ) / den) else none) := by
  simp only [computeExpPerMinute]
  rw [List.foldl_ext _ _ ((0 : ℤ), (0 : ℚ)) (expBody_eq a)]
  rw [foldl_prod_add]
  simp only [zero_add, sum_map_ite]

/-- Accumulated loss of the HP window: sum over all consecutive pairs of
`max 0 (previous - current)`. -/
def hpLossTotal (cps : List HpCheckpoint) : ℤ :=
  ((List.range' 1 (cps.length - 1)).map fun i =>
    max 0 ((cps.getD (i - 1) default).current_hp - (cps.getD i default).current_hp)).sum

/-- Total elapsed seconds of the HP window, summed over all consecutive pairs. -/
def hpElapsedSeconds (cps : List HpCheckpoint) : ℚ :=
  ((List.range' 1 (cps.length - 1)).map fun i =>
    (cps.getD i default).ts - (cps.getD (i - 1) default).ts).sum

/-- Accumulated loss of the MP window. -/
def mpLossTotal (cps : List MpCheckpoint) : ℤ :=
  ((List.range' 1 (cps.length - 1)).map fun i =>
    max 0 ((cps.getD (i - 1) default).current_mp - (cps.getD i default).current_mp)).sum

/-- Total elapsed seconds of the MP window. -/
def mpElapsedSeconds (cps : List MpCheckpoint) : ℚ :=
  ((List.range' 1 (cps.length - 1)).map fun i =>
    (cps.getD i default).ts - (cps.getD (i - 1) default).ts).sum

lemma hpBody_eq (cps : List HpCheckpoint) :
    ∀ (acc : ℤ × ℚ), ∀ i ∈ List.range' 1 (cps.length - 1),
      ((if (cps.getD i default).current_hp < (cps.getD (i - 1) default).current_hp
        then acc.1 + ((cps.getD (i - 1) default).current_hp - (cps.getD i default).current_hp)
        else acc.1),
       acc.2 + ((cps.getD i default).ts - (cps.getD (i - 1) default).ts))
      = (acc.1 + max 0 ((cps.getD (i - 1) default).current_hp
            - (cps.getD i default).current_hp),
         acc.2 + ((cps.getD i default).ts - (cps.getD (i - 1) default).ts)) := by
  intro acc i _
  by_cases h : (cps.getD i default).current_hp < (cps.getD (i - 1) default).current_hp
  · rw [if_pos h, max_eq_right (by omega : (0 : ℤ) ≤ _)]
  · rw [if_neg h, max_eq_left (by omega : _ ≤ (0 : ℤ)), add_zero]

lemma mpBody_eq (cps : List MpCheckpoint) :
    ∀ (acc : ℤ × ℚ), ∀ i ∈ List.range' 1 (cps.length - 1),
      ((if (cps.getD i default).current_mp < (cps.getD (i - 1) default).current_mp
        then acc.1 + ((cps.getD (i - 1) default).current_mp - (cps.getD i default).current_mp)
        else acc.1),
       acc.2 + ((cps.getD i default).ts - (cps.getD (i - 1) default).ts))
      = (acc.1 + max 0 ((cps.getD (i - 1) default).current_mp
            - (cps.getD i default).current_mp),
         acc.2 + ((cps.getD i default).ts - (cps.getD (i - 1) default).ts)) := by
  intro acc i _
  by_cases h : (cps.getD i default).current_mp < (cps.getD (i - 1) default).current_mp
  · rw [if_pos h, max_eq_right (by omega : (0 : ℤ) ≤ _)]
  · rw [if_neg h, max_eq_left (by omega : _ ≤ (0 : ℤ)), add_zero]

lemma computeHpLostPerMinute_eq (cps : List HpCheckpoint) :
    computeHpLostPerMinute cps =
      (if cps.length < 2 then none
       else if 0 < hpElapsedSeconds cps then
        (if 0 < hpElapsedSeconds cps / 60
         then some ((hpLossTotal cps : ℚ) / (hpElapsedSeconds cps / 60)) else some 0)
       else none) := by
  simp only [computeHpLostPerMinute]
  rw [List.foldl_ext _ _ ((0 : ℤ), (0 : ℚ)) (hpBody_eq cps), foldl_prod_add]
  simp only [hpLossTotal, hpElapsedSeconds, zero_add]

lemma computeMpLostPerMinute_eq (cps : List MpCheckpoint) :
    computeMpLostPerMinute cps =
      (if cps.length < 2 then none
       else if 0 < mpElapsedSeconds cps then
        (if 0 < mpElapsedSeconds cps / 60
         then some ((mpLossTotal cps : ℚ) / (mpElapsedSeconds cps / 60)) else some 0)
       else none) := by
  simp only [computeMpLostPerMinute]
  rw [List.foldl_ext _ _ ((0 : ℤ), (0 : ℚ)) (mpBody_eq cps), foldl_prod_add]
  simp only [mpLossTotal, mpElapsedSeconds, zero_add]

/-- C7: after every `add_checkpoint` call, and after `reset`, the
validity-indicator list of the experience analyzer has exactly the same length
as its checkpoint list. -/
theorem validity_length_invariant :
    (∀ (a : ExpAnalyzer) (c : ExpCheckpoint),
      (a.addCheckpoint c).checkpoint_indicators.length
        = (a.addCheckpoint c).checkpoints.length) ∧
    (∀ a : ExpAnalyzer,
      (a.reset).checkpoint_indicators.length = (a.reset).checkpoints.length) := by
  constructor
  · intro a c
    simp only [ExpAnalyzer.addCheckpoint]
    rw [validateCheckpoints_length]
  · intro a
    rfl

/-- C10: `get_result` leaves the analyzer state (window, validity indicators
and configuration) unchanged for all three analyzers, in every outcome. -/
theorem get_result_preserves_state :
    (∀ (a : ExpAnalyzer) (now : ℚ), (a.getResultS now).1 = a) ∧
    (∀ (a : HpAnalyzer) (now : ℚ), (a.getResultS now).1 = a) ∧
    (∀ (a : MpAnalyzer) (now : ℚ), (a.getResultS now).1 = a) := by
  refine ⟨fun a now => ?_, fun a now => ?_, fun a now => ?_⟩
  · unfold ExpAnalyzer.getResultS
    repeat' split
    all_goals rfl
  · unfold HpAnalyzer.getResultS
    repeat' split
    all_goals rfl
  · unfold MpAnalyzer.getResultS
    repeat' split
    all_goals rfl

/-- The concrete health window of the mixed gain/loss scenario:
200 → 100 → 150 → 130, evenly spaced 60 seconds apart. -/
def hpScenarioWindow : List HpCheckpoint :=
  [⟨200, 1000, 0⟩, ⟨100, 1000, 60⟩, ⟨150, 1000, 120⟩, ⟨130, 1000, 180⟩]

/-- C8: on the window 200→100→150→130 with 60-second spacing, the gain is
ignored, the accumulated loss is 120, the elapsed time is 180 seconds = 3
minutes, and the computed rate is exactly 40 per minute. -/
theorem hp_concrete_mixed_gain_loss :
    hpLossTotal hpScenarioWindow = 120 ∧
    hpElapsedSeconds hpScenarioWindow = 180 ∧
    hpElapsedSeconds hpScenarioWindow / 60 = 3 ∧
    computeHpLostPerMinute hpScenarioWindow = some 40 := by
  norm_num [hpLossTotal, hpElapsedSeconds, computeHpLostPerMinute, hpScenarioWindow,
    List.range']

/-- An HP analyzer with a completely empty window (fresh instance). -/
def hpEmptyWindowAnalyzer : HpAnalyzer := ⟨defaultHpAnalyzerConfig, []⟩

/-- An HP analyzer whose window has data but fewer than `min_checkpoints`
entries. -/
def hpInsufficientAnalyzer : HpAnalyzer := ⟨defaultHpAnalyzerConfig, [⟨100, 1000, 0⟩]⟩

/-- C3 counterexample: on a completely empty window the HP analyzer's
`get_result` returns the plain typed no-result `none` — the same value it
returns when data exists but is below `min_checkpoints` — so no
caller-distinguishable precondition-violation error is signaled; only the
experience analyzer raises. -/
theorem hp_empty_window_not_error :
    HpAnalyzer.getResult hpEmptyWindowAnalyzer 0 = none ∧
    HpAnalyzer.getResult hpInsufficientAnalyzer 0 = none := by
  decide

/-- C3 amended: only the experience analyzer raises the precondition-violation
error on an empty window (and reset() followed by get_result() always raises
it); the health and mana analyzers return the typed no-result `none` on an
empty window, indistinguishable from the insufficient-data outcome. -/
theorem empty_window_outcomes :
    (∀ (a : ExpAnalyzer) (now : ℚ), a.checkpoints = [] →
      a.getResult now = Except.error "No checkpoints available for analysis.") ∧
    (∀ (a : ExpAnalyzer) (now : ℚ),
      (a.reset).getResult now = Except.error "No checkpoints available for analysis.") ∧
    (∀ (a : HpAnalyzer) (now : ℚ), a.checkpoints = [] →
      0 < a.config.min_checkpoints → a.getResult now = none) ∧
    (∀ (a : MpAnalyzer) (now : ℚ), a.checkpoints = [] →
      0 < a.config.min_checkpoints → a.getResult now = none) := by
  refine ⟨fun a now h => ?_, fun a now => ?_, fun a now h hmin => ?_, fun a now h hmin => ?_⟩
  · unfold ExpAnalyzer.getResult ExpAnalyzer.getResultS
    rw [h]
    rfl
  · unfold ExpAnalyzer.getResult ExpAnalyzer.getResultS ExpAnalyzer.reset
    rfl
  · unfold HpAnalyzer.getResult HpAnalyzer.getResultS
    rw [if_pos (by rw [h]; simpa using hmin)]
  · unfold MpAnalyzer.getResult MpAnalyzer.getResultS
    rw [if_pos (by rw [h]; simpa using hmin)]

/-- C3 witness: the amended statement applied to fresh analyzers. -/
theorem empty_window_outcomes_witness :
    ExpAnalyzer.getResult ExpAnalyzer.init 0
      = Except.error "No checkpoints available for analysis." ∧
    HpAnalyzer.getResult HpAnalyzer.init 0 = none ∧
    MpAnalyzer.getResult MpAnalyzer.init 0 = none :=
  ⟨empty_window_outcomes.1 ExpAnalyzer.init 0 rfl,
   empty_window_outcomes.2.2.1 HpAnalyzer.init 0 rfl (by decide),
   empty_window_outcomes.2.2.2 MpAnalyzer.init 0 rfl (by decide)⟩

/-- Two HP checkpoints with identical timestamps: pairs exist, elapsed time 0. -/
def hpZeroTimeWindow : List HpCheckpoint := [⟨200, 1000, 0⟩, ⟨100, 1000, 0⟩]

/-- C4 counterexample: with two checkpoints and total elapsed time exactly 0
the computation returns the undefined/no-result outcome `none`, not the claimed
distinct result 0.0 (the `0.0` branch of the code is unreachable because a
positive seconds total always yields a positive minutes total). -/
theorem hp_zero_elapsed_not_zero_result :
    hpZeroTimeWindow.length = 2 ∧
    hpElapsedSeconds hpZeroTimeWindow = 0 ∧
    computeHpLostPerMinute hpZeroTimeWindow = none := by
  norm_num [hpElapsedSeconds, computeHpLostPerMinute, hpZeroTimeWindow, List.range']

/-- C4 amended: for the health/mana rate over a window with at least 2
checkpoints, the result is accumulated loss (sum of `max 0 (prev - curr)` over
all consecutive pairs) divided by the total elapsed time in minutes whenever
that time is positive; when the total elapsed time is 0 (or negative) the
result is the undefined/no-result outcome — the same outcome as fewer than 2
checkpoints, not a distinct 0.0. -/
theorem hp_mp_rate_characterization :
    (∀ cps : List HpCheckpoint,
      (cps.length < 2 → computeHpLostPerMinute cps = none) ∧
      (2 ≤ cps.length → 0 < hpElapsedSeconds cps →
        computeHpLostPerMinute cps
          = some ((hpLossTotal cps : ℚ) / (hpElapsedSeconds cps / 60))) ∧
      (2 ≤ cps.length → hpElapsedSeconds cps ≤ 0 →
        computeHpLostPerMinute cps = none)) ∧
    (∀ cps : List MpCheckpoint,
      (cps.length < 2 → computeMpLostPerMinute cps = none) ∧
      (2 ≤ cps.length → 0 < mpElapsedSeconds cps →
        computeMpLostPerMinute cps
          = some ((mpLossTotal cps : ℚ) / (mpElapsedSeconds cps / 60))) ∧
      (2 ≤ cps.length → mpElapsedSeconds cps ≤ 0 →
        computeMpLostPerMinute cps = none)) := by
  constructor
  · intro cps
    refine ⟨fun h => ?_, fun h2 hpos => ?_, fun h2 hnp => ?_⟩
    · rw [computeHpLostPerMinute_eq, if_pos h]
    · rw [computeHpLostPerMinute_eq, if_neg (by omega), if_pos hpos,
        if_pos (div_pos hpos (by norm_num))]
    · rw [computeHpLostPerMinute_eq, if_neg (by omega), if_neg (not_lt.mpr hnp)]
  · intro cps
    refine ⟨fun h => ?_, fun h2 hpos => ?_, fun h2 hnp => ?_⟩
    · rw [computeMpLostPerMinute_eq, if_pos h]
    · rw [computeMpLostPerMinute_eq, if_neg (by omega), if_pos hpos,
        if_pos (div_pos hpos (by norm_num))]
    · rw [computeMpLostPerMinute_eq, if_neg (by omega), if_neg (not_lt.mpr hnp)]

/-- A two-checkpoint HP window losing 50 points over 60 seconds. -/
def hpRateWitnessWindow : List HpCheckpoint := [⟨100, 1000, 0⟩, ⟨50, 1000, 60⟩]

/-- A two-checkpoint MP window losing 30 points over 120 seconds. -/
def mpRateWitnessWindow : List MpCheckpoint := [⟨80, 500, 0⟩, ⟨50, 500, 120⟩]

/-- C4 witness: the amended characterization applied to concrete windows. -/
theorem hp_mp_rate_characterization_witness :
    computeHpLostPerMinute hpRateWitnessWindow = some 50 ∧
    computeMpLostPerMinute mpRateWitnessWindow = some 15 := by
  constructor
  · have h := (hp_mp_rate_characterization.1 hpRateWitnessWindow).2.1 (by decide)
      (by norm_num [hpElapsedSeconds, hpRateWitnessWindow, List.range'])
    rw [h]
    norm_num [hpLossTotal, hpElapsedSeconds, hpRateWitnessWindow, List.range']
  · have h := (hp_mp_rate_characterization.2 mpRateWitnessWindow).2.1 (by decide)
      (by norm_num [mpElapsedSeconds, mpRateWitnessWindow, List.range'])
    rw [h]
    norm_num [mpLossTotal, mpElapsedSeconds, mpRateWitnessWindow, List.range']

lemma exp_addCheckpoint_config (a : ExpAnalyzer) (c : ExpCheckpoint) :
    (a.addCheckpoint c).config = a.config := rfl

lemma hp_addCheckpoint_config (a : HpAnalyzer) (c : HpCheckpoint) :
    (a.addCheckpoint c).config = a.config := rfl

lemma mp_addCheckpoint_config (a : MpAnalyzer) (c : MpCheckpoint) :
    (a.addCheckpoint c).config = a.config := rfl

lemma exp_addCheckpoint_length {a : ExpAnalyzer} (c : ExpCheckpoint)
    (hmax : 0 < a.config.max_checkpoints)
    (hlen : a.checkpoints.length ≤ a.config.max_checkpoints) :
    (a.addCheckpoint c).checkpoints.length ≤ a.config.max_checkpoints := by
  simp only [ExpAnalyzer.addCheckpoint]
  by_cases h : a.config.max_checkpoints ≤ a.checkpoints.length
  · rw [if_pos h]
    simp only [List.length_append, List.length_drop, List.length_cons, List.length_nil]
    omega
  · rw [if_neg h]
    simp only [List.length_append, List.length_cons, List.length_nil]
    omega

lemma hp_addCheckpoint_length {a : HpAnalyzer} (c : HpCheckpoint)
    (hmax : 0 < a.config.max_checkpoints)
    (hlen : a.checkpoints.length ≤ a.config.max_checkpoints) :
    (a.addCheckpoint c).checkpoints.length ≤ a.config.max_checkpoints := by
  simp only [HpAnalyzer.addCheckpoint]
  by_cases h : a.config.max_checkpoints ≤ a.checkpoints.length
  · rw [if_pos h]
    simp only [List.length_append, List.length_drop, List.length_cons, List.length_nil]
    omega
  · rw [if_neg h]
    simp only [List.length_append, List.length_cons, List.length_nil]
    omega

lemma mp_addCheckpoint_length {a : MpAnalyzer} (c : MpCheckpoint)
    (hmax : 0 < a.config.max_checkpoints)
    (hlen : a.checkpoints.length ≤ a.config.max_checkpoints) :
    (a.addCheckpoint c).checkpoints.length ≤ a.config.max_checkpoints := by
  simp only [MpAnalyzer.addCheckpoint]
  by_cases h : a.config.max_checkpoints ≤ a.checkpoints.length
  · rw [if_pos h]
    simp only [List.length_append, List.length_drop, List.length_cons, List.length_nil]
    omega
  · rw [if_neg h]
    simp only [List.length_append, List.length_cons, List.length_nil]
    omega

/-- C5: for every analyzer, starting from a window within capacity, any
sequence of `add_checkpoint` calls keeps the window length at or below
`max_checkpoints`; and an insertion at capacity drops exactly the element at
index 0 before appending, so the new window is the old tail followed by the
new checkpoint (FIFO order preserved). -/
theorem window_capacity_fifo :
    (∀ (a : ExpAnalyzer) (cs : List ExpCheckpoint),
      0 < a.config.max_checkpoints →
      a.checkpoints.length ≤ a.config.max_checkpoints →
      (cs.foldl ExpAnalyzer.addCheckpoint a).checkpoints.length
        ≤ a.config.max_checkpoints) ∧
    (∀ (a : ExpAnalyzer) (c : ExpCheckpoint),
      a.checkpoints.length = a.config.max_checkpoints →
      (a.addCheckpoint c).checkpoints = a.checkpoints.drop 1 ++ [c]) ∧
    (∀ (a : HpAnalyzer) (cs : List HpCheckpoint),
      0 < a.config.max_checkpoints →
      a.checkpoints.length ≤ a.config.max_checkpoints →
      (cs.foldl HpAnalyzer.addCheckpoint a).checkpoints.length
        ≤ a.config.max_checkpoints) ∧
    (∀ (a : HpAnalyzer) (c : HpCheckpoint),
      a.checkpoints.length = a.config.max_checkpoints →
      (a.addCheckpoint c).checkpoints = a.checkpoints.drop 1 ++ [c]) ∧
    (∀ (a : MpAnalyzer) (cs : List MpCheckpoint),
      0 < a.config.max_checkpoints →
      a.checkpoints.length ≤ a.config.max_checkpoints →
      (cs.foldl MpAnalyzer.addCheckpoint a).checkpoints.length
        ≤ a.config.max_checkpoints) ∧
    (∀ (a : MpAnalyzer) (c : MpCheckpoint),
      a.checkpoints.length = a.config.max_checkpoints →
      (a.addCheckpoint c).checkpoints = a.checkpoints.drop 1 ++ [c]) := by
  refine ⟨?_, ?_, ?_, ?_, ?_, ?_⟩
  · intro a cs
    induction cs generalizing a with
    | nil => intro _ hlen; exact hlen
    | cons c cs ih =>
      intro hmax hlen
      rw [List.foldl_cons]
      have h2 := ih (a.addCheckpoint c)
        (by rw [exp_addCheckpoint_config]; exact hmax)
        (by rw [exp_addCheckpoint_config]; exact exp_addCheckpoint_length c hmax hlen)
      rw [exp_addCheckpoint_config] at h2
      exact h2
  · intro a c hlen
    simp only [ExpAnalyzer.addCheckpoint]
    rw [if_pos (le_of_eq hlen.symm)]
  · intro a cs
    induction cs generalizing a with
    | nil => intro _ hlen; exact hlen
    | cons c cs ih =>
      intro hmax hlen
      rw [List.foldl_cons]
      have h2 := ih (a.addCheckpoint c)
        (by rw [hp_addCheckpoint_config]; exact hmax)
        (by rw [hp_addCheckpoint_config]; exact hp_addCheckpoint_length c hmax hlen)
      rw [hp_addCheckpoint_config] at h2
      exact h2
  · intro a c hlen
    simp only [HpAnalyzer.addCheckpoint]
    rw [if_pos (le_of_eq hlen.symm)]
  · intro a cs
    induction cs generalizing a with
    | nil => intro _ hlen; exact hlen
    | cons c cs ih =>
      intro hmax hlen
      rw [List.foldl_cons]
      have h2 := ih (a.addCheckpoint c)
        (by rw [mp_addCheckpoint_config]; exact hmax)
        (by rw [mp_addCheckpoint_config]; exact mp_addCheckpoint_length c hmax hlen)
      rw [mp_addCheckpoint_config] at h2
      exact h2
  · intro a c hlen
    simp only [MpAnalyzer.addCheckpoint]
    rw [if_pos (le_of_eq hlen.symm)]

/-- An experience analyzer at its (small) capacity of 2. -/
def expCapAnalyzer : ExpAnalyzer :=
  ⟨⟨5, 2, 2⟩, [⟨10, 100, 1/10, 0⟩, ⟨10, 110, 11/100, 5⟩],
   [true, true]⟩

/-- An HP analyzer at its (small) capacity of 2. -/
def hpCapAnalyzer : HpAnalyzer := ⟨⟨1, 2, 10⟩, [⟨90, 100, 0⟩, ⟨80, 100, 1⟩]⟩

/-- An MP analyzer at its (small) capacity of 2. -/
def mpCapAnalyzer : MpAnalyzer := ⟨⟨1, 5, 2, 10⟩, [⟨40, 50, 0⟩, ⟨30, 50, 1⟩]⟩

/-- C5 witness: the capacity bound and the at-capacity FIFO eviction applied
to concrete analyzers. -/
theorem window_capacity_fifo_witness :
    (([⟨10, 120, 3/25, 10⟩, ⟨10, 130, 13/100, 15⟩] :
        List ExpCheckpoint).foldl ExpAnalyzer.addCheckpoint expCapAnalyzer
      ).checkpoints.length ≤ expCapAnalyzer.config.max_checkpoints ∧
    (expCapAnalyzer.addCheckpoint ⟨10, 120, 3/25, 10⟩).checkpoints
      = expCapAnalyzer.checkpoints.drop 1 ++ [⟨10, 120, 3/25, 10⟩] ∧
    (hpCapAnalyzer.addCheckpoint ⟨70, 100, 2⟩).checkpoints
      = hpCapAnalyzer.checkpoints.drop 1 ++ [⟨70, 100, 2⟩] ∧
    (mpCapAnalyzer.addCheckpoint ⟨20, 50, 2⟩).checkpoints
      = mpCapAnalyzer.checkpoints.drop 1 ++ [⟨20, 50, 2⟩] :=
  ⟨window_capacity_fifo.1 expCapAnalyzer _ (by decide) (by decide),
   window_capacity_fifo.2.1 expCapAnalyzer _ (by decide),
   window_capacity_fifo.2.2.2.1 hpCapAnalyzer _ (by decide),
   window_capacity_fifo.2.2.2.2.2 mpCapAnalyzer _ (by decide)⟩

/-- C9: a checkpoint whose `exp_ratio` is non-positive is always marked valid
by the outlier filter: only checkpoints with a usable implied total can ever be
invalidated. -/
theorem nonpositive_ratio_stays_valid (cps : List ExpCheckpoint) (j : ℕ)
    (cp : ExpCheckpoint) (hj : cps[j]? = some cp) (hr : cp.exp_ratio ≤ 0) :
    (validateCheckpoints toleranceExpRatio cps).getD j false = true := by
  have hjl : j < cps.length := (List.getElem?_eq_some.mp hj).1
  by_cases h5 : cps.length < 5
  · unfold validateCheckpoints
    rw [if_pos h5]
    rw [List.getD_eq_getElem?_getD, List.getElem?_replicate, if_pos hjl]
    rfl
  · rw [List.getD_eq_getElem?_getD, validateCheckpoints_getElem? hj (by omega)]
    cases hInv : groupInvalidates toleranceExpRatio (levelGroup cps cp.level) j with
    | false => rfl
    | true =>
      obtain ⟨cp2, hcp2, _, hr2⟩ := groupInvalidates_level hInv
      rw [hj] at hcp2
      obtain rfl : cp = cp2 := Option.some.inj hcp2
      exact absurd hr2 (not_lt.mpr hr)

/-- A five-checkpoint window whose middle checkpoint has `exp_ratio = 0`. -/
def ratioZeroWindow : List ExpCheckpoint :=
  [⟨10, 100, 1/10, 0⟩, ⟨10, 110, 11/100, 5⟩, ⟨10, 0, 0, 10⟩,
   ⟨10, 130, 13/100, 15⟩, ⟨10, 140, 7/50, 20⟩]

/-- C9 witness: the zero-ratio checkpoint of a concrete window stays valid. -/
theorem nonpositive_ratio_stays_valid_witness :
    (validateCheckpoints toleranceExpRatio ratioZeroWindow).getD 2 false = true :=
  nonpositive_ratio_stays_valid ratioZeroWindow 2 ⟨10, 0, 0, 10⟩ rfl (by norm_num)

lemma groupInvalidates_own_iff {tol : ℚ} {cps : List ExpCheckpoint} {j : ℕ}
    {cp : ExpCheckpoint} (hj : cps[j]? = some cp) :
    groupInvalidates tol (levelGroup cps cp.level) j = true ↔
      0 < cp.exp_ratio ∧ 2 ≤ (impliedTotals cps cp.level).length ∧
        tol < |(cp.exp : ℚ) / cp.exp_ratio - median (impliedTotals cps cp.level)|
          / median (impliedTotals cps cp.level) := by
  have hlen : (impliedTotals cps cp.level).length
      = (impliedPairs (levelGroup cps cp.level)).length := by
    unfold impliedTotals
    exact List.length_map _ _
  unfold groupInvalidates
  by_cases h2 : (impliedPairs (levelGroup cps cp.level)).length < 2
  · rw [if_pos h2]
    constructor
    · intro h
      exact absurd h (by simp)
    · rintro ⟨_, hlen2, _⟩
      rw [hlen] at hlen2
      omega
  · rw [if_neg h2, List.any_eq_true]
    constructor
    · rintro ⟨p, hp, hcond⟩
      rw [Bool.and_eq_true, beq_iff_eq, decide_eq_true_eq] at hcond
      obtain ⟨hpj, hlt⟩ := hcond
      obtain ⟨cp2, hcp2, _, hr2, hval2⟩ := mem_impliedPairs_levelGroup.mp hp
      rw [hpj, hj] at hcp2
      obtain rfl : cp = cp2 := Option.some.inj hcp2
      refine ⟨hr2, by rw [hlen]; omega, ?_⟩
      rw [hval2] at hlt
      exact hlt
    · rintro ⟨hr, _, hlt⟩
      refine ⟨(j, (cp.exp : ℚ) / cp.exp_ratio), ?_, ?_⟩
      · exact mem_impliedPairs_levelGroup.mpr ⟨cp, hj, rfl, hr, rfl⟩
      · rw [Bool.and_eq_true, beq_iff_eq, decide_eq_true_eq]
        exact ⟨rfl, hlt⟩

/-- C2: the outlier filter returns a vector of the window's length; below five
checkpoints everything is valid; otherwise a checkpoint is invalid exactly
when it has a positive `exp_ratio`, its level group has at least two implied
totals, and its implied total deviates from the group median by more than the
2% tolerance (relatively); all other checkpoints stay valid. -/
theorem outlier_filter_characterization (cps : List ExpCheckpoint) :
    (validateCheckpoints toleranceExpRatio cps).length = cps.length ∧
    (cps.length < 5 → ∀ j, j < cps.length →
      (validateCheckpoints toleranceExpRatio cps).getD j false = true) ∧
    (5 ≤ cps.length → ∀ (j : ℕ) (cp : ExpCheckpoint), cps[j]? = some cp →
      ((validateCheckpoints toleranceExpRatio cps).getD j false = false ↔
        0 < cp.exp_ratio ∧ 2 ≤ (impliedTotals cps cp.level).length ∧
          toleranceExpRatio <
            |(cp.exp : ℚ) / cp.exp_ratio - median (impliedTotals cps cp.level)|
              / median (impliedTotals cps cp.level))) := by
  refine ⟨validateCheckpoints_length _ _, fun h5 j hjl => ?_, fun h5 j cp hj => ?_⟩
  · unfold validateCheckpoints
    rw [if_pos h5]
    rw [List.getD_eq_getElem?_getD, List.getElem?_replicate, if_pos hjl]
    rfl
  · rw [List.getD_eq_getElem?_getD, validateCheckpoints_getElem? hj h5]
    have hiff := @groupInvalidates_own_iff toleranceExpRatio cps j cp hj
    constructor
    · intro hfalse
      apply hiff.mp
      cases hgi : groupInvalidates toleranceExpRatio (levelGroup cps cp.level) j with
      | true => rfl
      | false =>
        rw [hgi] at hfalse
        exact absurd hfalse (by simp)
    · intro hR
      rw [hiff.mpr hR]
      rfl

/-- A five-checkpoint window whose implied totals are 1000, 1000, 1000, 1000,
5000: the last checkpoint deviates from the median 1000 by far more than 2%. -/
def outlierWindow : List ExpCheckpoint :=
  [⟨10, 100, 1/10, 0⟩, ⟨10, 100, 1/10, 5⟩, ⟨10, 200, 1/5, 10⟩,
   ⟨10, 300, 3/10, 15⟩, ⟨10, 500, 1/10, 20⟩]

/-- C2 witness: the characterization applied, marking the deviating checkpoint
of a concrete window invalid. -/
theorem outlier_filter_characterization_witness :
    (validateCheckpoints toleranceExpRatio outlierWindow).getD 4 false = false :=
  ((outlier_filter_characterization outlierWindow).2.2 (by decide) 4
      ⟨10, 500, 1/10, 20⟩ rfl).mpr
    (by norm_num [impliedTotals, impliedPairs, levelGroup, List.enum, List.enumFrom,
      outlierWindow, List.filterMap_cons, median, List.insertionSort,
      List.orderedInsert, toleranceExpRatio])

lemma computeExpPerMinute_ne_nil {a : ExpAnalyzer} {e : ℚ}
    (h : computeExpPerMinute a = some e) : a.checkpoints ≠ [] := by
  intro hnil
  unfold computeExpPerMinute at h
  rw [hnil] at h
  simp [List.range'] at h

lemma computeTotalExp_isEmpty_false {cps : List ExpCheckpoint} {t : ℚ}
    (h : computeTotalExp cps = some t) : cps.isEmpty = false := by
  unfold computeTotalExp at h
  by_cases he : cps.isEmpty
  · rw [if_pos he] at h
    exact absurd h (by simp)
  · simpa using he

lemma computeMinutesToNextLevel_none {cps : List ExpCheckpoint} (e : ℚ)
    (h : computeTotalExp cps = none) : computeMinutesToNextLevel cps e = none := by
  unfold computeMinutesToNextLevel
  by_cases he : cps.isEmpty
  · rw [if_pos he]
  · rw [if_neg he, h]

lemma computeMinutesToNextLevel_some {cps : List ExpCheckpoint} {t : ℚ} (e : ℚ)
    (h : computeTotalExp cps = some t) :
    computeMinutesToNextLevel cps e =
      (if t - ((cps.getLastD default).exp : ℚ) ≤ 0 then some (PyFloat.val 0)
       else if e ≤ 0 then some PyFloat.inf
       else some (PyFloat.val ((t - ((cps.getLastD default).exp : ℚ)) / e))) := by
  unfold computeMinutesToNextLevel
  rw [if_neg (by rw [computeTotalExp_isEmpty_false h]; simp), h]

/-- C6: when the rate is known and the window is large enough, an undefined
total-resource estimate still yields a populated result whose
minutes-to-next-level field is the NaN sentinel (not a no-result); and when
the estimate `total` is defined, the projection is 0 for
`remaining = total - last.exp ≤ 0`, +infinity for a non-positive rate, and
`remaining / rate` otherwise. -/
theorem minutes_projection_policy :
    (∀ (a : ExpAnalyzer) (now e : ℚ),
      a.config.min_checkpoints ≤ a.checkpoints.length →
      computeExpPerMinute a = some e →
      computeTotalExp a.checkpoints = none →
      ∃ r, a.getResult now = Except.ok (some r)
        ∧ r.minutes_to_next_level = PyFloat.nan) ∧
    (∀ (cps : List ExpCheckpoint) (e t : ℚ),
      computeTotalExp cps = some t →
      ((t - ((cps.getLastD default).exp : ℚ) ≤ 0 →
          computeMinutesToNextLevel cps e = some (PyFloat.val 0)) ∧
       (0 < t - ((cps.getLastD default).exp : ℚ) → e ≤ 0 →
          computeMinutesToNextLevel cps e = some PyFloat.inf) ∧
       (0 < t - ((cps.getLastD default).exp : ℚ) → 0 < e →
          computeMinutesToNextLevel cps e
            = some (PyFloat.val ((t - ((cps.getLastD default).exp : ℚ)) / e))))) := by
  constructor
  · intro a now e hmin hepm htot
    have hne : a.checkpoints.isEmpty = false := by
      have hne' := computeExpPerMinute_ne_nil hepm
      by_cases he : a.checkpoints.isEmpty
      · exact absurd (List.isEmpty_iff.mp he) hne'
      · simpa using he
    unfold ExpAnalyzer.getResult ExpAnalyzer.getResultS
    rw [hne, if_neg (by simp), if_neg (not_lt.mpr hmin), hepm]
    dsimp only
    rw [computeMinutesToNextLevel_none e htot]
    exact ⟨_, rfl, rfl⟩
  · intro cps e t htot
    refine ⟨fun hrem => ?_, fun hrem hrate => ?_, fun hrem hrate => ?_⟩
    · rw [computeMinutesToNextLevel_some e htot, if_pos hrem]
    · rw [computeMinutesToNextLevel_some e htot, if_neg (not_le.mpr hrem), if_pos hrate]
    · rw [computeMinutesToNextLevel_some e htot, if_neg (not_le.mpr hrem),
        if_neg (not_le.mpr hrate)]

/-- An analyzer whose rate is computable (100 exp/min) but whose last
checkpoint has `exp_ratio = 0`, so the total-resource estimate is undefined. -/
def projNanAnalyzer : ExpAnalyzer :=
  ⟨⟨5, 720, 2⟩, [⟨10, 100, 1/10, 0⟩, ⟨10, 200, 0, 60⟩], [true, true]⟩

/-- A one-checkpoint window with implied total 1000 and current exp 100. -/
def projWindow : List ExpCheckpoint := [⟨10, 100, 1/10, 0⟩]

/-- C6 witness: the NaN propagation and the finite projection applied to
concrete inputs (remaining 900 at rate 50 gives 18 minutes). -/
theorem minutes_projection_policy_witness :
    (∃ r, ExpAnalyzer.getResult projNanAnalyzer 0 = Except.ok (some r)
        ∧ r.minutes_to_next_level = PyFloat.nan) ∧
    computeMinutesToNextLevel projWindow 50 = some (PyFloat.val 18) := by
  constructor
  · exact minutes_projection_policy.1 projNanAnalyzer 0 100
      (by decide)
      (by norm_num [computeExpPerMinute, projNanAnalyzer, List.range'])
      (by norm_num [computeTotalExp, projNanAnalyzer])
  · have h := (minutes_projection_policy.2 projWindow 50 1000
        (by norm_num [computeTotalExp, projWindow])).2.2
      (by norm_num [projWindow, List.getLastD_cons, List.getLastD_nil])
      (by norm_num)
    rw [h]
    norm_num [projWindow, List.getLastD_cons, List.getLastD_nil]
